import Mathlib

/-!
Verification of the Drass attention-tracker analytics engine
(`server/database.py`, `server/main.py`) against its specification.

Timestamps are UTC instants at second precision, modelled as integers
(seconds).  Quantities the code computes with float division (averages,
per-hour rates, 2-decimal rounding) are modelled exactly over `ℚ`.
The two storage tables (`sessions`, `distractions`) are modelled as lists
of rows; SQL `SELECT ... WHERE`/`ORDER BY` clauses become list filters
and sorts.
-/

namespace Drass

/-- A row of the `sessions` table. -/
structure Session where
  id : Nat
  started_at : Int
  ended_at : Option Int
deriving Repr, DecidableEq

/-- A row of the `distractions` table. -/
structure Distraction where
  id : Nat
  session_id : Nat
  created_at : Int
deriving Repr, DecidableEq

/-- The database state: the two tables. -/
structure DB where
  sessions : List Session
  distractions : List Distraction
deriving Repr, DecidableEq

/-- Model of `SELECT ... FROM sessions WHERE id = ?` (first matching row). -/
def findSession (db : DB) (sid : Nat) : Option Session :=
  db.sessions.find? (fun s => s.id = sid)

/-- Model of `SELECT created_at FROM distractions WHERE session_id = ? ORDER BY created_at`. -/
def distractionsOf (db : DB) (sid : Nat) : List Int :=
  (((db.distractions.filter (fun d => d.session_id = sid)).map
      (fun d => d.created_at)).insertionSort (· ≤ ·))

/-- Python `max(gaps) if gaps else 0.0`: maximum of a list, `0` when empty. -/
def maxOrZero : List Int → Int
  | [] => 0
  | g :: gs => gs.foldl max g

/-- The gap list built by the loop in `_longest_streak_seconds`: from a
previous boundary `prev`, the (already sorted) distraction times, and the
end boundary `fin`, the consecutive differences. -/
def gapsFrom (prev : Int) (ts : List Int) (fin : Int) : List Int :=
  match ts with
  | [] => [fin - prev]
  | t :: rest => (t - prev) :: gapsFrom t rest fin

/-- Model of `_longest_streak_seconds(started_at, ended_at, distraction_times)`:
`0` when `ended_at` is absent; otherwise sort the distraction times, build
the gap list (start→first, consecutive, last→end; the single gap end−start
when there are none) and take its maximum. -/
def longest_streak_seconds (started_at : Int) (ended_at : Option Int)
    (distraction_times : List Int) : Int :=
  match ended_at with
  | none => 0
  | some fin =>
      let times := distraction_times.insertionSort (· ≤ ·)
      maxOrZero (gapsFrom started_at times fin)

/-- Spec-side boundary sequence `[started_at] + sorted(distraction_times) + [ended_at]`. -/
def boundarySeq (start fin : Int) (times : List Int) : List Int :=
  start :: (times.insertionSort (· ≤ ·) ++ [fin])

/-- Spec-side consecutive gaps of a boundary sequence. -/
def consecutiveGaps (l : List Int) : List Int :=
  l.zipWith (fun a b => b - a) l.tail

/-- The round-half-to-even rounding of the Python round builtin, applied to an exact rational. -/
def roundHalfEven (x : ℚ) : Int :=
  let f := ⌊x⌋
  let r := x - f
  if r < 1/2 then f
  else if 1/2 < r then f + 1
  else if f % 2 = 0 then f else f + 1

/-- Model of `round(x, 2)`: round to 2 decimal places (half to even), exactly. -/
def round2 (x : ℚ) : ℚ := (roundHalfEven (x * 100) : ℚ) / 100

/-- Model of `num_streaks = count + 1 if count > 0 else 1` (summary and end-session paths). -/
def numStreaks (count : Nat) : Nat := if count > 0 then count + 1 else 1

/-- The summary record reported for an ended session. -/
structure SessionSummary where
  duration_seconds : ℚ
  distraction_count : Nat
  average_streak_seconds : ℚ
  longest_streak_seconds : ℚ
deriving Repr, DecidableEq

/-- Model of `get_session_summary(session_id)`: `none` when the session is missing
or has no `ended_at`; otherwise duration, distraction count, average and
longest streak, each seconds value rounded to 2 decimals. -/
def get_session_summary (db : DB) (sid : Nat) : Option SessionSummary :=
  match findSession db sid with
  | none => none
  | some s =>
    match s.ended_at with
    | none => none
    | some fin =>
      let dist_times := distractionsOf db sid
      let duration : ℚ := ((fin - s.started_at : Int) : ℚ)
      let count := dist_times.length
      some { duration_seconds := round2 duration
             distraction_count := count
             average_streak_seconds := round2 (duration / (numStreaks count : ℚ))
             longest_streak_seconds :=
               round2 ((longest_streak_seconds s.started_at (some fin) dist_times : Int) : ℚ) }

/-- The HTTP summary endpoint (`session_summary` in `main.py`): a missing
summary becomes one 404 error. -/
def sessionSummaryEndpoint (db : DB) (sid : Nat) :
    Except (Nat × String) SessionSummary :=
  match get_session_summary db sid with
  | none => .error (404, "Session not found or not ended")
  | some s => .ok s

/-- The record `end_session_full` returns: the ended session plus its summary. -/
structure EndResult where
  id : Nat
  started_at : Int
  ended_at : Int
  summary : SessionSummary
deriving Repr, DecidableEq

/-- Model of `end_session_full(session_id)`: validate (missing / already ended),
set `ended_at`, and compute the same summary as `get_session_summary`.
Returns the updated database together with the result. -/
def end_session_full (ended_at : Int) (db : DB) (sid : Nat) :
    Except String (DB × EndResult) :=
  match findSession db sid with
  | none => .error "Session not found"
  | some s =>
    match s.ended_at with
    | some _ => .error "Session already ended"
    | none =>
      let db2 : DB :=
        { db with sessions :=
            (db.sessions.map
              (fun r => if r.id = sid then { r with ended_at := some ended_at } else r)) }
      let dist_times := distractionsOf db sid
      let duration : ℚ := ((ended_at - s.started_at : Int) : ℚ)
      let count := dist_times.length
      .ok (db2,
        { id := sid, started_at := s.started_at, ended_at := ended_at,
          summary :=
            { duration_seconds := round2 duration
              distraction_count := count
              average_streak_seconds := round2 (duration / (numStreaks count : ℚ))
              longest_streak_seconds :=
                round2 ((longest_streak_seconds s.started_at (some ended_at) dist_times : Int) : ℚ) } })

/-- The constant `ACTIVE_SESSION_MAX_AGE_HOURS = 24`. -/
def ACTIVE_SESSION_MAX_AGE_HOURS : Int := 24

/-- Model of `ORDER BY started_at DESC LIMIT 1`: a row with maximal `started_at`. -/
def maxByStart : List Session → Option Session
  | [] => none
  | s :: rest =>
    match maxByStart rest with
    | none => some s
    | some m => if m.started_at < s.started_at then some s else some m

/-- The candidate of `get_active_session`: the most recently started row
with `ended_at IS NULL`. -/
def mostRecentUnended (db : DB) : Option Session :=
  maxByStart (db.sessions.filter (fun s => s.ended_at.isNone))

/-- What `get_active_session` returns for the active session. -/
structure ActiveInfo where
  id : Nat
  started_at : Int
  ended_at : Option Int
  distraction_count : Nat
deriving Repr, DecidableEq

/-- Model of `get_active_session()`: the most recent unended session, reported as
absent when its age exceeds 24 hours (`age_hours > ACTIVE_SESSION_MAX_AGE_HOURS`,
with `age_hours = (now - started).total_seconds() / 3600`). -/
def get_active_session (now : Int) (db : DB) : Option ActiveInfo :=
  match mostRecentUnended db with
  | none => none
  | some s =>
    if ACTIVE_SESSION_MAX_AGE_HOURS * 3600 < now - s.started_at then none
    else some { id := s.id, started_at := s.started_at, ended_at := s.ended_at,
                distraction_count :=
                  (db.distractions.filter (fun d => d.session_id = s.id)).length }

/-- The function `get_active_session` as a state transformer over the database: the
function body issues only SELECT queries, so the state passes through. -/
def get_active_session_state (now : Int) (db : DB) : Option ActiveInfo × DB :=
  (get_active_session now db, db)

/-- The inclusion test of the `_compute_day_stats` loop:
`streak > 0 or (s["ended_at"] and not dist_times)`. -/
def streakIncluded (dbs : Nat → List Int) (s : Session) : Bool :=
  decide (0 < longest_streak_seconds s.started_at s.ended_at (dbs s.id)) ||
    (s.ended_at.isSome && (dbs s.id).isEmpty)

/-- The streak value of a session as pooled by `_compute_day_stats`. -/
def streakOf (dbs : Nat → List Int) (s : Session) : Int :=
  longest_streak_seconds s.started_at s.ended_at (dbs s.id)

/-- One iteration of the `_compute_day_stats` loop: add the distraction
count of the session, and append its streak to the pool when included. -/
def dayStatsStep (dbs : Nat → List Int) (acc : Nat × List Int) (s : Session) :
    Nat × List Int :=
  (acc.1 + (dbs s.id).length,
    if streakIncluded dbs s then acc.2 ++ [streakOf dbs s] else acc.2)

/-- Model of `_compute_day_stats(sessions, distractions_by_session)`: fold the loop
over the sessions starting from `(0, [])`. -/
def compute_day_stats (sessions : List Session) (dbs : Nat → List Int) :
    Nat × List Int :=
  sessions.foldl (dayStatsStep dbs) (0, [])

/-- The IST offset (+5:30) in seconds. -/
def istOffset : Int := 19800

/-- The IST calendar day (as a day index) containing a UTC instant:
floor of local time over 86400 seconds. -/
def istDay (t : Int) : Int := (t + istOffset) / 86400

/-- The UTC instant of IST local midnight opening day `d`. -/
def istMidnightUTC (d : Int) : Int := d * 86400 - istOffset

/-- The session-fetch window of `get_stats`: `started_at` in
`[week_start_utc, tomorrow_end_utc)` for today `D`, i.e. from IST midnight
of day `D - 6` up to (excluding) IST midnight of day `D + 1`. -/
def inStatsWindow (D : Int) (t : Int) : Prop :=
  istMidnightUTC (D - 6) ≤ t ∧ t < istMidnightUTC (D + 1)

/-- One entry of the `last_7_days` trend.  The `%d-%m-%Y` date string is
modelled by the IST day index it formats. -/
structure DayTrend where
  day : Int
  session_count : Nat
  total_distractions : Nat
  longest_streak_seconds : Int
deriving Repr, DecidableEq

/-- The day-bucket grouping of `get_stats` (`day_buckets`): the sessions whose
`started_at` falls on IST day `k`. -/
def dayBucket (sessions : List Session) (k : Int) : List Session :=
  sessions.filter (fun s => istDay s.started_at = k)

/-- The 7-day trend loop of `get_stats`: for `d = 0..6`, day `D - d`,
the bucket session count, distraction total and pooled longest streak
(`max(day_streaks) if day_streaks else 0.0`). -/
def last_7_days (D : Int) (sessions : List Session) (dbs : Nat → List Int) :
    List DayTrend :=
  (List.range 7).map (fun (d : Nat) =>
    let k : Int := D - (d : Int)
    let day_sessions := dayBucket sessions k
    let stats := compute_day_stats day_sessions dbs
    { day := k, session_count := day_sessions.length,
      total_distractions := stats.1,
      longest_streak_seconds := maxOrZero stats.2 })

/-- Model of `today_total_seconds = max(0.0, (now_utc - today_start_utc).total_seconds())`. -/
def todaySeconds (delta : ℚ) : ℚ := max 0 delta

/-- Model of `today_hours = today_total_seconds / 3600.0 if today_total_seconds > 0 else 1.0`. -/
def todayHours (delta : ℚ) : ℚ :=
  if 0 < todaySeconds delta then todaySeconds delta / 3600 else 1

/-- Model of `today_distractions_per_hour = today_distraction_count / today_hours`. -/
def todayDistractionsPerHour (count : Nat) (delta : ℚ) : ℚ :=
  (count : ℚ) / todayHours delta

/-- Concrete database: one session (id 1), started at 0, still active. -/
def dbUnended : DB := ⟨[⟨1, 0, none⟩], []⟩

/-- Concrete database: one ended session (id 1, span [0, 100]) with
distractions at 10 and 50. -/
def dbEnded : DB := ⟨[⟨1, 0, some 100⟩], [⟨1, 1, 10⟩, ⟨2, 1, 50⟩]⟩

/-- Concrete distractions-by-session map: session 1 has distractions at
10 and 50, every other session none. -/
def day2Dbs : Nat → List Int := fun i => if i = 1 then [10, 50] else []

/-- Concrete database: two unended sessions started at 0 and 5000. -/
def dbTwoActive : DB := ⟨[⟨1, 0, none⟩, ⟨2, 5000, none⟩], []⟩

/-! ### Helper lemmas -/

theorem gapsFrom_length (prev fin : Int) (ts : List Int) :
    (gapsFrom prev ts fin).length = ts.length + 1 := by
  induction ts generalizing prev with
  | nil => simp [gapsFrom]
  | cons t rest ih => simp [gapsFrom, ih]

theorem gapsFrom_sum (prev fin : Int) (ts : List Int) :
    (gapsFrom prev ts fin).sum = fin - prev := by
  induction ts generalizing prev with
  | nil => simp [gapsFrom]
  | cons t rest ih =>
    simp only [gapsFrom, List.sum_cons, ih]
    ring

theorem gapsFrom_eq_consecutiveGaps (prev fin : Int) (ts : List Int) :
    gapsFrom prev ts fin = consecutiveGaps (prev :: (ts ++ [fin])) := by
  induction ts generalizing prev with
  | nil => simp [gapsFrom, consecutiveGaps]
  | cons t rest ih =>
    simp only [gapsFrom, consecutiveGaps, List.cons_append,
      List.zipWith, List.tail_cons, ih]
    rfl

theorem foldl_max_mem (gs : List Int) (g : Int) :
    gs.foldl max g = g ∨ gs.foldl max g ∈ gs := by
  induction gs generalizing g with
  | nil => left; rfl
  | cons g' rest ih =>
    rcases ih (max g g') with h | h
    · rcases max_choice g g' with hm | hm
      · left; rw [List.foldl_cons, h, hm]
      · right; rw [List.foldl_cons, h, hm]; exact List.mem_cons_self _ _
    · right; exact List.mem_cons_of_mem _ h

theorem le_foldl_max (gs : List Int) (g : Int) :
    g ≤ gs.foldl max g ∧ ∀ x ∈ gs, x ≤ gs.foldl max g := by
  induction gs generalizing g with
  | nil => exact ⟨le_refl g, by simp⟩
  | cons g' rest ih =>
    rw [List.foldl_cons]
    have h := ih (max g g')
    refine ⟨le_trans (le_max_left g g') h.1, ?_⟩
    intro x hx
    rcases List.mem_cons.mp hx with hx | hx
    · rw [hx]; exact le_trans (le_max_right g g') h.1
    · exact h.2 x hx

theorem maxOrZero_mem (l : List Int) (h : l ≠ []) : maxOrZero l ∈ l := by
  match l with
  | [] => exact absurd rfl h
  | g :: gs =>
    rcases foldl_max_mem gs g with h' | h'
    · rw [maxOrZero, h']; exact List.mem_cons_self _ _
    · exact List.mem_cons_of_mem _ h'

theorem le_maxOrZero (l : List Int) (x : Int) (hx : x ∈ l) : x ≤ maxOrZero l := by
  match l with
  | g :: gs =>
    rcases List.mem_cons.mp hx with h | h
    · exact h ▸ (le_foldl_max gs g).1
    · exact (le_foldl_max gs g).2 x h

theorem mem_le_sum_of_nonneg (l : List Int) (x : Int) (hx : x ∈ l)
    (h : ∀ y ∈ l, 0 ≤ y) : x ≤ l.sum := by
  induction l with
  | nil => cases hx
  | cons a rest ih =>
    rw [List.sum_cons]
    rcases List.mem_cons.mp hx with h' | h'
    · subst h'
      have : 0 ≤ rest.sum := List.sum_nonneg (fun y hy => h y (List.mem_cons_of_mem _ hy))
      omega
    · have := ih h' (fun y hy => h y (List.mem_cons_of_mem _ hy))
      have ha := h a (List.mem_cons_self _ _)
      omega

theorem gapsFrom_nonneg (fin : Int) (ts : List Int) :
    ∀ prev, prev ≤ fin → (∀ t ∈ ts, prev ≤ t) → (∀ t ∈ ts, t ≤ fin) →
      ts.Sorted (· ≤ ·) → ∀ g ∈ gapsFrom prev ts fin, 0 ≤ g := by
  induction ts with
  | nil =>
    intro prev hpf _ _ _ g hg
    simp only [gapsFrom, List.mem_singleton] at hg
    omega
  | cons t rest ih =>
    intro prev hpf hlo hhi hs g hg
    simp only [gapsFrom, List.mem_cons] at hg
    rcases hg with hg | hg
    · have := hlo t (List.mem_cons_self _ _)
      omega
    · have hsr := List.sorted_cons.mp hs
      exact ih t (hhi t (List.mem_cons_self _ _))
        (fun u hu => hsr.1 u hu)
        (fun u hu => hhi u (List.mem_cons_of_mem _ hu)) hsr.2 g hg

theorem gapsFrom_ne_nil (prev fin : Int) (ts : List Int) :
    gapsFrom prev ts fin ≠ [] := by
  cases ts <;> simp [gapsFrom]

theorem longest_streak_some (start fin : Int) (times : List Int) :
    longest_streak_seconds start (some fin) times =
      maxOrZero (gapsFrom start (times.insertionSort (· ≤ ·)) fin) := rfl

theorem streak_gaps_eq (start fin : Int) (times : List Int) :
    consecutiveGaps (boundarySeq start fin times) =
      gapsFrom start (times.insertionSort (· ≤ ·)) fin :=
  (gapsFrom_eq_consecutiveGaps start fin (times.insertionSort (· ≤ ·))).symm

/-! ### Claim theorems -/

/-- C1: the function `longest_streak_seconds` returns 0 when `ended_at` is absent;
otherwise it is the maximum of the consecutive gaps over the boundary
sequence `[started_at] + sorted(distraction_times) + [ended_at]` (it is a
gap of that sequence and bounds every gap), and with zero distractions it
equals `ended_at - started_at`. -/
theorem longest_streak_correct (start fin : Int) (times : List Int) :
    longest_streak_seconds start none times = 0 ∧
    (longest_streak_seconds start (some fin) times ∈
        consecutiveGaps (boundarySeq start fin times) ∧
      ∀ g ∈ consecutiveGaps (boundarySeq start fin times),
        g ≤ longest_streak_seconds start (some fin) times) ∧
    longest_streak_seconds start (some fin) [] = fin - start := by
  refine ⟨rfl, ⟨?_, ?_⟩, ?_⟩
  · rw [streak_gaps_eq, longest_streak_some]
    exact maxOrZero_mem _ (gapsFrom_ne_nil _ _ _)
  · intro g hg
    rw [streak_gaps_eq] at hg
    rw [longest_streak_some]
    exact le_maxOrZero _ g hg
  · simp [longest_streak_some, List.insertionSort, gapsFrom, maxOrZero]

/-- C1 witness: the theorem applied at start 0, end 100, distractions
[10, 50] (all hypotheses inside are dischargeable there). -/
theorem longest_streak_correct_witness :
    longest_streak_seconds 0 none [10, 50] = 0 ∧
    (longest_streak_seconds 0 (some 100) [10, 50] ∈
        consecutiveGaps (boundarySeq 0 100 [10, 50]) ∧
      ∀ g ∈ consecutiveGaps (boundarySeq 0 100 [10, 50]),
        g ≤ longest_streak_seconds 0 (some 100) [10, 50]) ∧
    longest_streak_seconds 0 (some 100) [] = 100 - 0 :=
  longest_streak_correct 0 100 [10, 50]

/-- C3: for distraction times all within `[start, fin]`, the computation
considers exactly `N + 1` gaps, the gaps sum to the duration
`fin - start`, and the returned longest streak is at most the duration. -/
theorem streak_gap_algebra (start fin : Int) (times : List Int)
    (h : ∀ t ∈ times, start ≤ t ∧ t ≤ fin) :
    (gapsFrom start (times.insertionSort (· ≤ ·)) fin).length = times.length + 1 ∧
    (gapsFrom start (times.insertionSort (· ≤ ·)) fin).sum = fin - start ∧
    longest_streak_seconds start (some fin) times ≤ fin - start := by
  refine ⟨?_, gapsFrom_sum _ _ _, ?_⟩
  · rw [gapsFrom_length, List.length_insertionSort]
  · rw [longest_streak_some]
    have hmem : ∀ u ∈ times.insertionSort (· ≤ ·), start ≤ u ∧ u ≤ fin :=
      fun u hu => h u ((List.mem_insertionSort _).mp hu)
    have hsorted := List.sorted_insertionSort (· ≤ ·) times
    cases hsort : times.insertionSort (· ≤ ·) with
    | nil => simp [gapsFrom, maxOrZero]
    | cons t ts =>
      rw [hsort] at hmem hsorted
      have htm : t ∈ t :: ts := List.mem_cons_self _ _
      have hsf : start ≤ fin := le_trans (hmem t htm).1 (hmem t htm).2
      have hnn : ∀ g ∈ gapsFrom start (t :: ts) fin, 0 ≤ g :=
        gapsFrom_nonneg fin (t :: ts) start hsf (fun u hu => (hmem u hu).1)
          (fun u hu => (hmem u hu).2) hsorted
      have hm := maxOrZero_mem _ (gapsFrom_ne_nil start fin (t :: ts))
      calc maxOrZero (gapsFrom start (t :: ts) fin)
          ≤ (gapsFrom start (t :: ts) fin).sum := mem_le_sum_of_nonneg _ _ hm hnn
        _ = fin - start := gapsFrom_sum _ _ _

/-- C3 witness: the theorem applied at start 0, end 100, distractions
[10, 50], whose times all lie within the session bounds. -/
theorem streak_gap_algebra_witness :
    (gapsFrom 0 (List.insertionSort (· ≤ ·) [10, 50]) 100).length = 3 ∧
    (gapsFrom 0 (List.insertionSort (· ≤ ·) [10, 50]) 100).sum = 100 - 0 ∧
    longest_streak_seconds 0 (some 100) [10, 50] ≤ 100 - 0 :=
  streak_gap_algebra 0 100 [10, 50] (by decide)

/-- C10: the computation sorts the distraction times itself, so the
longest streak is invariant under permutation of the distraction list. -/
theorem streak_permutation_invariant (start : Int) (e : Option Int)
    (l l' : List Int) (h : l.Perm l') :
    longest_streak_seconds start e l = longest_streak_seconds start e l' := by
  cases e with
  | none => rfl
  | some fin =>
    have hsort : l.insertionSort (· ≤ ·) = l'.insertionSort (· ≤ ·) :=
      List.eq_of_perm_of_sorted
        ((List.perm_insertionSort _ l).trans (h.trans (List.perm_insertionSort _ l').symm))
        (List.sorted_insertionSort _ l) (List.sorted_insertionSort _ l')
    rw [longest_streak_some, longest_streak_some, hsort]

/-- C10 witness: the theorem applied to the swapped list [50, 10] and
[10, 50]. -/
theorem streak_permutation_invariant_witness :
    longest_streak_seconds 0 (some 100) [50, 10] =
      longest_streak_seconds 0 (some 100) [10, 50] :=
  streak_permutation_invariant 0 (some 100) [50, 10] [10, 50]
    (List.Perm.swap 10 50 [])

theorem compute_day_stats_loop (dbs : Nat → List Int) (sessions : List Session) :
    ∀ acc : Nat × List Int,
      sessions.foldl (dayStatsStep dbs) acc =
        (acc.1 + (sessions.map (fun s => (dbs s.id).length)).sum,
          acc.2 ++ (sessions.filter (streakIncluded dbs)).map (streakOf dbs)) := by
  induction sessions with
  | nil => intro acc; simp
  | cons s rest ih =>
    intro acc
    rw [List.foldl_cons, ih]
    by_cases hc : streakIncluded dbs s
    · simp [dayStatsStep, hc, List.filter_cons, Nat.add_assoc]
    · simp [dayStatsStep, hc, List.filter_cons, Nat.add_assoc]

theorem compute_day_stats_eq (sessions : List Session) (dbs : Nat → List Int) :
    compute_day_stats sessions dbs =
      ((sessions.map (fun s => (dbs s.id).length)).sum,
        (sessions.filter (streakIncluded dbs)).map (streakOf dbs)) := by
  rw [compute_day_stats, compute_day_stats_loop]
  simp

/-- C2: the streak value of a session enters the day max-streak pool iff the
computed streak is strictly positive, or the session has ended with zero
distractions; an ended zero-duration session with no distractions
contributes streak value 0; the day value is the maximum of the pool and 0
when the pool is empty. -/
theorem day_pool_inclusion (sessions : List Session) (dbs : Nat → List Int) :
    (compute_day_stats sessions dbs).2 =
        (sessions.filter (streakIncluded dbs)).map (streakOf dbs) ∧
    (∀ s : Session, streakIncluded dbs s = true ↔
        (0 < streakOf dbs s ∨ (s.ended_at.isSome ∧ dbs s.id = []))) ∧
    (∀ s : Session, s.ended_at = some s.started_at → dbs s.id = [] →
        streakIncluded dbs s = true ∧ streakOf dbs s = 0) ∧
    maxOrZero [] = 0 ∧
    (∀ pool : List Int, pool ≠ [] →
        maxOrZero pool ∈ pool ∧ ∀ x ∈ pool, x ≤ maxOrZero pool) := by
  refine ⟨by rw [compute_day_stats_eq], ?_, ?_, rfl, ?_⟩
  · intro s
    simp [streakIncluded, streakOf, List.isEmpty_iff]
  · intro s h1 h2
    refine ⟨by simp [streakIncluded, h1, h2], ?_⟩
    rw [streakOf, h2, h1]
    simp [longest_streak_some, List.insertionSort, gapsFrom, maxOrZero]
  · intro pool hp
    exact ⟨maxOrZero_mem pool hp, fun x hx => le_maxOrZero pool x hx⟩

/-- C2 witness: the theorem applied to a concrete day bucket holding an
ended session with two distractions, an ended zero-duration session with
none, and an unended session. -/
theorem day_pool_inclusion_witness :
    (compute_day_stats
        [⟨1, 0, some 100⟩, ⟨2, 200, some 200⟩, ⟨3, 300, none⟩] day2Dbs).2 =
        (([⟨1, 0, some 100⟩, ⟨2, 200, some 200⟩,
            ⟨3, 300, none⟩] : List Session).filter (streakIncluded day2Dbs)).map
          (streakOf day2Dbs) ∧
    (∀ s : Session, streakIncluded day2Dbs s = true ↔
        (0 < streakOf day2Dbs s ∨ (s.ended_at.isSome ∧ day2Dbs s.id = []))) ∧
    (∀ s : Session, s.ended_at = some s.started_at → day2Dbs s.id = [] →
        streakIncluded day2Dbs s = true ∧ streakOf day2Dbs s = 0) ∧
    maxOrZero [] = 0 ∧
    (∀ pool : List Int, pool ≠ [] →
        maxOrZero pool ∈ pool ∧ ∀ x ∈ pool, x ≤ maxOrZero pool) :=
  day_pool_inclusion [⟨1, 0, some 100⟩, ⟨2, 200, some 200⟩, ⟨3, 300, none⟩] day2Dbs

theorem numStreaks_cast (count : Nat) :
    ((numStreaks count : Nat) : ℚ) = if 0 < count then (count : ℚ) + 1 else 1 := by
  rw [numStreaks]
  split <;> simp

/-- C4: for an ended session the summary reports
`duration = ended_at - started_at`, the distraction count,
`average = duration / num_streaks` with
`num_streaks = count + 1 if count > 0 else 1`, and the longest streak,
every seconds value rounded to 2 decimal places; an unended session yields
no summary. -/
theorem session_summary_fields (db : DB) (sid : Nat) :
    (∀ s, findSession db sid = some s → s.ended_at = none →
        get_session_summary db sid = none) ∧
    (∀ s fin, findSession db sid = some s → s.ended_at = some fin →
        get_session_summary db sid = some
          { duration_seconds := round2 ((fin - s.started_at : Int) : ℚ)
            distraction_count := (distractionsOf db sid).length
            average_streak_seconds := round2 (((fin - s.started_at : Int) : ℚ) /
              (if 0 < (distractionsOf db sid).length then
                ((distractionsOf db sid).length : ℚ) + 1 else 1))
            longest_streak_seconds := round2
              ((longest_streak_seconds s.started_at (some fin)
                  (distractionsOf db sid) : Int) : ℚ) }) := by
  constructor
  · intro s hs he
    simp [get_session_summary, hs, he]
  · intro s fin hs he
    simp [get_session_summary, hs, he, numStreaks_cast]

/-- C4 witness: on the concrete ended session of `dbEnded` (span
[0, 100], distractions at 10 and 50) the summary is 100 s duration,
2 distractions, average 33.33 s, longest 50 s; its unended variant in
`dbUnended` yields no summary. -/
theorem session_summary_fields_witness :
    get_session_summary dbEnded 1 = some
      { duration_seconds := 100, distraction_count := 2,
        average_streak_seconds := 3333/100, longest_streak_seconds := 50 } ∧
    get_session_summary dbUnended 1 = none := by
  constructor
  · have h := (session_summary_fields dbEnded 1).2 ⟨1, 0, some 100⟩ 100 rfl rfl
    have hd : distractionsOf dbEnded 1 = [10, 50] := by decide
    rw [hd] at h
    have hl : longest_streak_seconds 0 (some 100) [10, 50] = 50 := by decide
    rw [h]
    norm_num [hl, round2, roundHalfEven]
  · exact (session_summary_fields dbUnended 1).1 ⟨1, 0, none⟩ rfl rfl

/-- C5 counterexample: in `dbUnended`, session 1 exists and has not
ended while session 2 has no record, yet the summary endpoint produces
the identical `404 "Session not found or not ended"` error for both, so
the two cases are not distinguishable. -/
theorem summary_errors_indistinguishable :
    (∃ s, findSession dbUnended 1 = some s ∧ s.ended_at = none) ∧
    findSession dbUnended 2 = none ∧
    sessionSummaryEndpoint dbUnended 1 = sessionSummaryEndpoint dbUnended 2 ∧
    sessionSummaryEndpoint dbUnended 1 =
      .error (404, "Session not found or not ended") :=
  ⟨⟨⟨1, 0, none⟩, rfl, rfl⟩, rfl, rfl, rfl⟩

/-- C5 amended: requesting a summary for an existing-but-unended session
produces the same single error as for a missing session id — in both
cases `get_session_summary` yields no summary and the endpoint answers
`404 "Session not found or not ended"`; the two cases are not
distinguishable. -/
theorem summary_error_uniform (db : DB) (sid : Nat) :
    (findSession db sid = none →
        sessionSummaryEndpoint db sid =
          .error (404, "Session not found or not ended")) ∧
    (∀ s, findSession db sid = some s → s.ended_at = none →
        sessionSummaryEndpoint db sid =
          .error (404, "Session not found or not ended")) := by
  constructor
  · intro h
    simp [sessionSummaryEndpoint, get_session_summary, h]
  · intro s hs he
    simp [sessionSummaryEndpoint, get_session_summary, hs, he]

/-- C5 amended witness: the amended theorem applied to `dbUnended` at the
existing-but-unended session 1 and at the missing session 2. -/
theorem summary_error_uniform_witness :
    sessionSummaryEndpoint dbUnended 1 =
        .error (404, "Session not found or not ended") ∧
    sessionSummaryEndpoint dbUnended 2 =
        .error (404, "Session not found or not ended") :=
  ⟨(summary_error_uniform dbUnended 1).2 ⟨1, 0, none⟩ rfl rfl,
    (summary_error_uniform dbUnended 2).1 rfl⟩

/-- C9: the value `num_streaks` is at least 1 for every distraction count, so the
average-streak divisor used by both the summary path
(`get_session_summary`) and the end-session path (`end_session_full`)
is never zero. -/
theorem num_streaks_never_zero :
    (∀ count : Nat, 1 ≤ numStreaks count) ∧
    (∀ count : Nat, ((numStreaks count : Nat) : ℚ) ≠ 0) := by
  constructor <;> intro count <;> rw [numStreaks]
  · split <;> omega
  · split <;> push_cast <;> positivity

/-- C6: the elapsed-hours divisor equals `max(0, now - todayStart) / 3600`
when positive elapsed time has passed, is 1.0 at zero elapsed time, is
never zero, and is the divisor of the per-hour rate. -/
theorem today_rate_divisor :
    (∀ d : ℚ, 0 < d → todayHours d = max 0 d / 3600) ∧
    todayHours 0 = 1 ∧
    (∀ d : ℚ, todayHours d ≠ 0) ∧
    (∀ (c : Nat) (d : ℚ), todayDistractionsPerHour c d = (c : ℚ) / todayHours d) := by
  refine ⟨?_, ?_, ?_, fun c d => rfl⟩
  · intro d hd
    rw [todayHours, if_pos]
    rw [todaySeconds]
    exact lt_max_iff.mpr (Or.inr hd)
  · rw [todayHours]
    simp [todaySeconds]
  · intro d
    by_cases h : 0 < todaySeconds d
    · rw [todayHours, if_pos h]
      exact ne_of_gt (div_pos h (by norm_num))
    · rw [todayHours, if_neg h]
      exact one_ne_zero

/-- C6 witness: the theorem applied at 2 elapsed hours (7200 s) and 4
distractions, and at zero elapsed time. -/
theorem today_rate_divisor_witness :
    todayHours 7200 = max 0 7200 / 3600 ∧ todayHours 0 = 1 ∧
    todayHours 7200 ≠ 0 ∧
    todayDistractionsPerHour 4 7200 = (4 : ℚ) / todayHours 7200 :=
  ⟨today_rate_divisor.1 7200 (by norm_num), today_rate_divisor.2.1,
    today_rate_divisor.2.2.1 7200, today_rate_divisor.2.2.2 4 7200⟩

theorem maxByStart_eq_none (l : List Session) (h : maxByStart l = none) :
    l = [] := by
  cases l with
  | nil => rfl
  | cons a rest =>
    cases hm : maxByStart rest with
    | none => simp only [maxByStart, hm] at h; cases h
    | some m =>
      simp only [maxByStart, hm] at h
      by_cases hc : m.started_at < a.started_at
      · rw [if_pos hc] at h; cases h
      · rw [if_neg hc] at h; cases h

theorem maxByStart_mem (l : List Session) :
    ∀ s, maxByStart l = some s → s ∈ l := by
  induction l with
  | nil => intro s h; cases h
  | cons a rest ih =>
    intro s h
    cases hm : maxByStart rest with
    | none =>
      simp only [maxByStart, hm, Option.some.injEq] at h
      rw [← h]
      exact List.mem_cons_self _ _
    | some m =>
      simp only [maxByStart, hm] at h
      by_cases hc : m.started_at < a.started_at
      · rw [if_pos hc, Option.some.injEq] at h
        rw [← h]
        exact List.mem_cons_self _ _
      · rw [if_neg hc, Option.some.injEq] at h
        rw [← h]
        exact List.mem_cons_of_mem _ (ih m hm)

theorem maxByStart_isMax (l : List Session) :
    ∀ s, maxByStart l = some s → ∀ u ∈ l, u.started_at ≤ s.started_at := by
  induction l with
  | nil => intro s h; cases h
  | cons a rest ih =>
    intro s h u hu
    cases hm : maxByStart rest with
    | none =>
      simp only [maxByStart, hm, Option.some.injEq] at h
      have hrest : rest = [] := maxByStart_eq_none rest hm
      subst hrest
      rcases List.mem_cons.mp hu with hua | hua
      · rw [hua, h]
      · cases hua
    | some m =>
      simp only [maxByStart, hm] at h
      rcases List.mem_cons.mp hu with hua | hua
      · by_cases hc : m.started_at < a.started_at
        · rw [if_pos hc, Option.some.injEq] at h; rw [hua, h]
        · rw [if_neg hc, Option.some.injEq] at h; rw [hua, ← h]
          exact not_lt.mp hc
      · have hle := ih m hm u hua
        by_cases hc : m.started_at < a.started_at
        · rw [if_pos hc, Option.some.injEq] at h; rw [← h]
          exact le_trans hle (le_of_lt hc)
        · rw [if_neg hc, Option.some.injEq] at h; rw [← h]
          exact hle

/-- C7: the active-session check selects the most recently started
unended session as candidate, reports no active session when its age
exceeds 24 hours, and never modifies the stored sessions. -/
theorem active_session_check (now : Int) (db : DB) :
    (get_active_session_state now db).2 = db ∧
    (∀ s, mostRecentUnended db = some s →
        s ∈ db.sessions ∧ s.ended_at = none ∧
        (∀ u ∈ db.sessions, u.ended_at = none → u.started_at ≤ s.started_at) ∧
        (ACTIVE_SESSION_MAX_AGE_HOURS * 3600 < now - s.started_at →
          get_active_session now db = none)) ∧
    (∀ info, get_active_session now db = some info →
        ∃ s, mostRecentUnended db = some s ∧ info.id = s.id ∧
          info.started_at = s.started_at ∧
          now - s.started_at ≤ ACTIVE_SESSION_MAX_AGE_HOURS * 3600) := by
  refine ⟨rfl, ?_, ?_⟩
  · intro s h
    rw [mostRecentUnended] at h
    have hmem := maxByStart_mem _ s h
    have hmax := maxByStart_isMax _ s h
    have h1 := List.mem_filter.mp hmem
    refine ⟨h1.1, Option.isNone_iff_eq_none.mp h1.2, ?_, ?_⟩
    · intro u hu hue
      exact hmax u (List.mem_filter.mpr ⟨hu, by rw [hue]; rfl⟩)
    · intro hstale
      simp only [get_active_session, mostRecentUnended, h]
      rw [if_pos hstale]
  · intro info h
    cases hm : mostRecentUnended db with
    | none => simp only [get_active_session, hm] at h; cases h
    | some s =>
      simp only [get_active_session, hm] at h
      by_cases hc : ACTIVE_SESSION_MAX_AGE_HOURS * 3600 < now - s.started_at
      · rw [if_pos hc] at h; cases h
      · rw [if_neg hc, Option.some.injEq] at h
        exact ⟨s, rfl, by rw [← h], by rw [← h], not_lt.mp hc⟩

/-- C7 witness: in a database with two unended sessions (started at 0 and
5000) checked at time 100000, the state passes through unchanged, the
candidate is the later session, and — its age exceeding 24 hours — no
active session is reported. -/
theorem active_session_check_witness :
    (get_active_session_state 100000 dbTwoActive).2 = dbTwoActive ∧
    get_active_session 100000 dbTwoActive = none :=
  ⟨(active_session_check 100000 dbTwoActive).1,
    ((active_session_check 100000 dbTwoActive).2.1 ⟨2, 5000, none⟩
        (by decide)).2.2.2 (by decide)⟩

theorem istDay_window (D t : Int) (h : inStatsWindow D t) :
    D - 6 ≤ istDay t ∧ istDay t ≤ D := by
  rcases h with ⟨h1, h2⟩
  rw [istMidnightUTC, istOffset] at h1 h2
  rw [istDay, istOffset]
  omega

theorem last_7_days_entry (D : Int) (sessions : List Session)
    (dbs : Nat → List Int) (d : Nat) (hd : d < 7) :
    (last_7_days D sessions dbs)[d]? = some
      { day := D - d,
        session_count := (dayBucket sessions (D - d)).length,
        total_distractions := (compute_day_stats (dayBucket sessions (D - d)) dbs).1,
        longest_streak_seconds :=
          maxOrZero (compute_day_stats (dayBucket sessions (D - d)) dbs).2 } := by
  rw [last_7_days, List.getElem?_map, List.getElem?_range hd]
  rfl

/-- C8: a session starting in the 7-day fetch window falls on exactly one
of the 7 IST days of the trend, day-bucket membership is determined solely by
the IST day of `started_at`, and the trend has exactly 7 entries ordered
most-recent-first with zero counts and streak `0.0` for empty days. -/
theorem stats_window_bucketing (D t : Int) (sessions : List Session)
    (dbs : Nat → List Int) (ht : inStatsWindow D t) :
    (∃! d : Fin 7, istDay t = D - (d : Nat)) ∧
    (∀ (s : Session) (k : Int), s ∈ dayBucket sessions k ↔
        (s ∈ sessions ∧ istDay s.started_at = k)) ∧
    (last_7_days D sessions dbs).length = 7 ∧
    (∀ d : Nat, d < 7 → ∀ e, (last_7_days D sessions dbs)[d]? = some e →
        e.day = D - d) ∧
    (∀ d : Nat, d < 7 → (∀ s ∈ sessions, istDay s.started_at ≠ D - d) →
        (last_7_days D sessions dbs)[d]? = some
          { day := D - d, session_count := 0, total_distractions := 0,
            longest_streak_seconds := 0 }) := by
  have hwin := istDay_window D t ht
  refine ⟨?_, ?_, ?_, ?_, ?_⟩
  · refine ⟨⟨(D - istDay t).toNat, by omega⟩, ?_, ?_⟩
    · show istDay t = D - (((D - istDay t).toNat : Nat) : Int)
      omega
    · intro d hd
      apply Fin.ext
      show d.val = (D - istDay t).toNat
      have hd7 := d.isLt
      omega
  · intro s k
    simp [dayBucket, List.mem_filter]
  · rw [last_7_days, List.length_map, List.length_range]
  · intro d hd e he
    rw [last_7_days_entry D sessions dbs d hd, Option.some.injEq] at he
    rw [← he]
  · intro d hd hempty
    have hb : dayBucket sessions (D - d) = [] :=
      List.filter_eq_nil_iff.mpr
        (fun s hs => by simpa using hempty s hs)
    rw [last_7_days_entry D sessions dbs d hd, hb]
    rfl

/-- C8 witness: the theorem applied for today `D = 0`, a session start
instant `t = 0` inside the window, no sessions, and no distractions. -/
theorem stats_window_bucketing_witness :
    (∃! d : Fin 7, istDay 0 = 0 - (d : Nat)) ∧
    (∀ (s : Session) (k : Int), s ∈ dayBucket [] k ↔
        (s ∈ ([] : List Session) ∧ istDay s.started_at = k)) ∧
    (last_7_days 0 [] (fun _ => [])).length = 7 ∧
    (∀ d : Nat, d < 7 → ∀ e, (last_7_days 0 [] (fun _ => []))[d]? = some e →
        e.day = 0 - d) ∧
    (∀ d : Nat, d < 7 → (∀ s ∈ ([] : List Session), istDay s.started_at ≠ 0 - d) →
        (last_7_days 0 [] (fun _ => []))[d]? = some
          { day := 0 - d, session_count := 0, total_distractions := 0,
            longest_streak_seconds := 0 }) :=
  stats_window_bucketing 0 0 [] (fun _ => []) (by constructor <;> decide)

end Drass
